import Mathlib

/-!
Shallow embedding of the Taxonomy & Classification Overlay Engine of the
gowrox-finance backend (src/backend).  The storage layer (SQLAlchemy over a
relational database) is modelled as lists of rows; SQL SELECT / UPDATE /
DELETE statements become list lookups, maps and filters; a service call is a
pure function from a store state to an error-or-result-with-new-state
(Python exceptions become the error side of Except).  Machine-level types:
dates, timestamps and fixed-point decimal amounts (Numeric(12,2)) are
modelled as Int, ids as Nat.  py_strip stands for Python str.strip and
py_lower for str.lower (both written over character lists so that proofs and
the kernel can evaluate them).  Exception messages are elided: only the
exception class (the error kind) is modelled.
-/

namespace Gowrox

/-- Row of the groups table (models.py, class Group). -/
structure Group where
  id : Nat
  name : String
  sort_order : Int
deriving Repr, DecidableEq

/-- Row of the categories table (models.py, class Category). -/
structure Category where
  id : Nat
  group_id : Nat
  name : String
  report_class : String
  sort_order : Int
deriving Repr, DecidableEq

/-- Row of the accounts table (models.py, class Account); only the fields the
Query/Filter Engine reads are kept. -/
structure Account where
  id : Nat
  name : String
deriving Repr, DecidableEq

/-- Row of the transactions table (models.py, class Transaction). -/
structure Transaction where
  id : Nat
  account_id : Nat
  ledger_snapshot_id : Nat
  date : Int
  description : String
  amount : Int
  source_table : String
  source_file : String
  source_row : Nat
deriving Repr, DecidableEq

/-- Row of the transaction_categories table (models.py, class
TransactionCategory): the Assignment of the spec. -/
structure TransactionCategory where
  txn_id : Nat
  category_id : Nat
  assigned_at : Int
deriving Repr, DecidableEq

/-- The relational store: one list of rows per table the engine touches. -/
structure StoreState where
  accounts : List Account
  groups : List Group
  categories : List Category
  transactions : List Transaction
  transaction_categories : List TransactionCategory
deriving Repr, DecidableEq

/-- Closed set of error kinds raised by the services (taxonomy.py and
transactions.py exception classes, keyed by class, messages elided). -/
inductive TaxonomyError where
  | notFound
  | conflict
  | protectedCategory
  | validation
  | sentinelMissing
deriving Repr, DecidableEq

-- taxonomy.py module constants
def UNCLASSIFIED_GROUP_NAME : String := "Unclassified"
def DELETED_CATEGORY_NAME : String := "Deleted Category"
def UNCATEGORIZED_CATEGORY_NAME : String := "Uncategorized"
def PROTECTED_CATEGORY_NAMES : List String :=
  [DELETED_CATEGORY_NAME, UNCATEGORIZED_CATEGORY_NAME]

/-- Characters stripped from both ends by Python str.strip. -/
def trim_chars (l : List Char) : List Char :=
  ((l.dropWhile Char.isWhitespace).reverse.dropWhile Char.isWhitespace).reverse

/-- Python str.strip. -/
def py_strip (s : String) : String := ⟨trim_chars s.data⟩

/-- Python str.lower. -/
def py_lower (s : String) : String := ⟨s.data.map Char.toLower⟩

/-- taxonomy.py normalize_category_name: str.strip. -/
def normalize_category_name (name : String) : String := py_strip name

/-- taxonomy.py is_protected_category_id: the category joined with its group
is in the Unclassified group and bears one of the sentinel names. -/
def is_protected_category_id (st : StoreState) (category_id : Nat) : Bool :=
  st.categories.any fun c =>
    c.id == category_id &&
    st.groups.any (fun g => g.id == c.group_id && g.name == UNCLASSIFIED_GROUP_NAME) &&
    PROTECTED_CATEGORY_NAMES.contains c.name

/-- taxonomy.py get_deleted_category_id: id of the Deleted Category sentinel;
SentinelCategoryMissingError when absent. -/
def get_deleted_category_id (st : StoreState) : Except TaxonomyError Nat :=
  match st.categories.find? (fun c =>
      st.groups.any (fun g => g.id == c.group_id && g.name == UNCLASSIFIED_GROUP_NAME) &&
      c.name == DELETED_CATEGORY_NAME) with
  | some c => .ok c.id
  | none => .error .sentinelMissing

/-- taxonomy.py delete_category_reassign_to_deleted.  The repoint UPDATE sets
assigned_at to the database current timestamp, passed in as now. -/
def delete_category_reassign_to_deleted (st : StoreState) (category_id : Nat)
    (now : Int) : Except TaxonomyError ((Nat × String × Nat) × StoreState) :=
  match st.categories.find? (fun c => c.id == category_id) with
  | none => .error .notFound
  | some category_row =>
    if is_protected_category_id st category_id then
      .error .protectedCategory
    else
      match get_deleted_category_id st with
      | .error e => .error e
      | .ok deleted_category_id =>
        let reassigned := st.transaction_categories.countP
          (fun l => l.category_id == category_id)
        let new_links := st.transaction_categories.map fun l =>
          if l.category_id == category_id then
            { l with category_id := deleted_category_id, assigned_at := now }
          else l
        let new_cats := st.categories.filter (fun c => !(c.id == category_id))
        .ok ((reassigned, category_row.name, deleted_category_id),
          { st with transaction_categories := new_links, categories := new_cats })

/-- taxonomy.py rename_category. -/
def rename_category (st : StoreState) (category_id : Nat) (new_name : String) :
    Except TaxonomyError ((Category × Bool) × StoreState) :=
  let normalized_name := normalize_category_name new_name
  if normalized_name == "" then
    .error .validation
  else
    match st.categories.find? (fun c => c.id == category_id) with
    | none => .error .notFound
    | some category =>
      if is_protected_category_id st category_id then
        .error .protectedCategory
      else if py_lower category.name == py_lower normalized_name then
        .ok ((category, false), st)
      else if (st.categories.find? fun c =>
          py_lower c.name == py_lower normalized_name && !(c.id == category_id)).isSome then
        .error .conflict
      else
        let new_cats := st.categories.map fun c =>
          if c.id == category_id then { c with name := normalized_name } else c
        .ok (({ category with name := normalized_name }, true),
          { st with categories := new_cats })

/-- SQL coalesce(max(sort_order), 0) over a list of sort keys. -/
def coalesce_max_sort : List Int → Int
  | [] => 0
  | x :: xs => xs.foldl max x

/-- taxonomy.py move_category_to_group. -/
def move_category_to_group (st : StoreState) (category_id : Nat)
    (target_group_id : Nat) (sort_order : Option Int) :
    Except TaxonomyError ((Category × Bool) × StoreState) :=
  match st.categories.find? (fun c => c.id == category_id) with
  | none => .error .notFound
  | some category =>
    if is_protected_category_id st category_id then
      .error .protectedCategory
    else
      match st.groups.find? (fun g => g.id == target_group_id) with
      | none => .error .notFound
      | some _ =>
        if category.group_id == target_group_id then
          .ok ((category, false), st)
        else
          let so := match sort_order with
            | some s => s
            | none =>
              coalesce_max_sort
                ((st.categories.filter (fun c => c.group_id == target_group_id)).map
                  (fun c => c.sort_order)) + 1
          let new_cats := st.categories.map fun c =>
            if c.id == category_id then
              { c with group_id := target_group_id, sort_order := so }
            else c
          .ok (({ category with group_id := target_group_id, sort_order := so }, true),
            { st with categories := new_cats })

/-- taxonomy.py normalize_report_class. -/
def normalize_report_class (report_class : String) :
    Except TaxonomyError String :=
  let normalized := py_lower (py_strip report_class)
  if normalized == "auto" || normalized == "transfer" then .ok normalized
  else .error .validation

/-- taxonomy.py create_category_in_existing_group_id.  The database assigns
the primary key of a fresh row; that autoincrement value enters the model as
the new_id parameter. -/
def create_category_in_existing_group_id (st : StoreState) (group_id : Nat)
    (category_name : String) (sort_order : Option Int) (report_class : String)
    (new_id : Nat) : Except TaxonomyError ((Category × Bool) × StoreState) :=
  let cname := normalize_category_name category_name
  if cname == "" then
    .error .validation
  else if (match sort_order with | some s => decide (s < 0) | none => false) then
    .error .validation
  else
    match normalize_report_class report_class with
    | .error e => .error e
    | .ok normalized_report_class =>
      match st.groups.find? (fun g => g.id == group_id) with
      | none => .error .notFound
      | some grp =>
        match st.categories.find? (fun c =>
            c.group_id == grp.id && py_lower c.name == py_lower cname) with
        | some existing_same_group => .ok ((existing_same_group, false), st)
        | none =>
          if (st.categories.find? fun c =>
              st.groups.any (fun g => g.id == c.group_id) &&
              py_lower c.name == py_lower cname).isSome then
            .error .conflict
          else
            let so := match sort_order with
              | some s => s
              | none =>
                coalesce_max_sort
                  ((st.categories.filter (fun c => c.group_id == grp.id)).map
                    (fun c => c.sort_order)) + 1
            let cat : Category :=
              { id := new_id, group_id := grp.id, name := cname,
                report_class := normalized_report_class, sort_order := so }
            .ok ((cat, true), { st with categories := st.categories ++ [cat] })

/-- transactions.py assign_transaction_category (the Classification Overlay
service entry point).  The assignment timestamp datetime.utcnow() enters the
model as now. -/
def assign_transaction_category (st : StoreState) (txn_id : Nat)
    (category_id : Nat) (now : Int) :
    Except TaxonomyError ((Bool × String) × StoreState) :=
  match st.transactions.find? (fun t => t.id == txn_id) with
  | none => .error .notFound
  | some _ =>
    match st.categories.find? (fun c => c.id == category_id) with
    | none => .error .notFound
    | some _ =>
      if is_protected_category_id st category_id then
        .error .validation
      else
        match st.transaction_categories.find? (fun l => l.txn_id == txn_id) with
        | none =>
          .ok ((true, "Transaction category assigned"),
            { st with transaction_categories := st.transaction_categories ++
              [{ txn_id := txn_id, category_id := category_id, assigned_at := now }] })
        | some _ =>
          .ok ((false, "Transaction category updated"),
            { st with transaction_categories := st.transaction_categories.map fun l =>
              if l.txn_id == txn_id then
                { l with category_id := category_id, assigned_at := now }
              else l })

/-- Response payload of the legacy classification router handler. -/
structure SetTransactionCategoryOut where
  txn_id : Nat
  category_id : Nat
  category_name : String
  category_report_class : String
  group_id : Nat
  group_name : String
  assigned_at : Int
deriving Repr, DecidableEq

/-- routers/classification.py set_transaction_category (PUT
/api/transactions/txn_id/category): direct assignment handler that does not
consult is_protected_category_id.  The final enriched-response join is folded
into the same Except value; it succeeds whenever the category's group row
exists. -/
def set_transaction_category (st : StoreState) (txn_id : Nat)
    (category_id : Nat) (now : Int) :
    Except TaxonomyError (SetTransactionCategoryOut × StoreState) :=
  match st.transactions.find? (fun t => t.id == txn_id) with
  | none => .error .notFound
  | some _ =>
    match st.categories.find? (fun c => c.id == category_id) with
    | none => .error .notFound
    | some cat =>
      let st' :=
        match st.transaction_categories.find? (fun l => l.txn_id == txn_id) with
        | none =>
          { st with transaction_categories := st.transaction_categories ++
            [{ txn_id := txn_id, category_id := cat.id, assigned_at := now }] }
        | some _ =>
          { st with transaction_categories := st.transaction_categories.map fun l =>
            if l.txn_id == txn_id then
              { l with category_id := cat.id, assigned_at := now }
            else l }
      match st.groups.find? (fun g => g.id == cat.group_id) with
      | none => .error .sentinelMissing
      | some grp =>
        .ok ({ txn_id := txn_id, category_id := cat.id, category_name := cat.name,
               category_report_class := cat.report_class, group_id := grp.id,
               group_name := grp.name, assigned_at := now }, st')

/-! Text ordering.  The SQL ORDER BY ... name ASC clauses compare names under
the database's binary collation; the model compares codepoint sequences. -/

/-- Codepoint-lexicographic comparison of character lists. -/
def chars_le : List Char → List Char → Bool
  | [], _ => true
  | _ :: _, [] => false
  | x :: xs, y :: ys =>
    if x.val.toNat < y.val.toNat then true
    else if y.val.toNat < x.val.toNat then false
    else chars_le xs ys

/-- Binary-collation string comparison used by every ORDER BY name clause. -/
def string_le (a b : String) : Bool := chars_le a.data b.data

/-- ORDER BY (sort_order ASC, name ASC) on groups (taxonomy_map). -/
def group_order (a b : Group) : Prop :=
  a.sort_order < b.sort_order ∨
    (a.sort_order = b.sort_order ∧ string_le a.name b.name = true)

/-- ORDER BY (sort_order ASC, name ASC) on categories. -/
def category_order (a b : Category) : Prop :=
  a.sort_order < b.sort_order ∨
    (a.sort_order = b.sort_order ∧ string_le a.name b.name = true)

/-- ORDER BY (group_id ASC, sort_order ASC, name ASC) on categories, the
ordering of the category query inside taxonomy_map. -/
def category_global_order (a b : Category) : Prop :=
  a.group_id < b.group_id ∨ (a.group_id = b.group_id ∧ category_order a b)

instance : DecidableRel group_order := fun a b =>
  inferInstanceAs (Decidable (a.sort_order < b.sort_order ∨
    (a.sort_order = b.sort_order ∧ string_le a.name b.name = true)))

instance : DecidableRel category_order := fun a b =>
  inferInstanceAs (Decidable (a.sort_order < b.sort_order ∨
    (a.sort_order = b.sort_order ∧ string_le a.name b.name = true)))

instance : DecidableRel category_global_order := fun a b =>
  inferInstanceAs (Decidable (a.group_id < b.group_id ∨
    (a.group_id = b.group_id ∧ category_order a b)))

/-- taxonomy.py taxonomy_map: all groups ordered by (sort_order, name), all
categories ordered by (group_id, sort_order, name), then partitioned by
group_id.  The Python dict partition keeps encounter order, so the bucket of
a group id equals the ordered filter of the sorted category list. -/
def taxonomy_map (st : StoreState) : List (Group × List Category) :=
  let groups := List.insertionSort group_order st.groups
  let cats := List.insertionSort category_global_order st.categories
  groups.map fun g => (g, cats.filter (fun c => c.group_id == g.id))

/-! Query/Filter Engine (services/transactions.py). -/

/-- Error kinds of list_transactions (transactions.py exception classes).
Amount filters enter the model already parsed, so InvalidAmountError's
string-parsing path is out of the model. -/
inductive ListTransactionsError where
  | invalidSort
  | ambiguousTaxonomyFilter
deriving Repr, DecidableEq

/-- transactions.py TransactionListFilters.  The date, decimal-amount and
taxonomy filters are optional; the field named end in Python is end_ here.
Amount filters carry already-parsed decimals (Int). -/
structure TransactionListFilters where
  start : Option Int
  end_ : Option Int
  account : Option String
  source_table : Option String
  description_contains : Option String
  amount : Option Int
  amount_min : Option Int
  amount_max : Option Int
  group_id : Option Nat
  group_name : Option String
  category_id : Option Nat
  category_name : Option String
  sort_by : String
  sort_dir : String
  limit : Nat
  offset : Nat
deriving Repr, DecidableEq

/-- The default filter values of the Python dataclass. -/
def default_filters : TransactionListFilters :=
  { start := none, end_ := none, account := none, source_table := none,
    description_contains := none, amount := none, amount_min := none,
    amount_max := none, group_id := none, group_name := none,
    category_id := none, category_name := none,
    sort_by := "date", sort_dir := "asc", limit := 200, offset := 0 }

/-- One row of the list_transactions join: Transaction inner-joined to
Account, outer-joined to the classification overlay. -/
structure JoinedRow where
  tx : Transaction
  acct : Account
  link : Option TransactionCategory
  cat : Option Category
  grp : Option Group
deriving Repr, DecidableEq

/-- The join of list_transactions before any WHERE clause: every transaction
with its account (inner join) and its overlay rows resolved by id lookup
(outer joins, None when absent). -/
def joined_rows (st : StoreState) : List JoinedRow :=
  st.transactions.filterMap fun t =>
    (st.accounts.find? (fun a => a.id == t.account_id)).map fun acct =>
      let link := st.transaction_categories.find? (fun l => l.txn_id == t.id)
      let cat := link.bind fun l => st.categories.find? (fun c => c.id == l.category_id)
      let grp := cat.bind fun c => st.groups.find? (fun g => g.id == c.group_id)
      { tx := t, acct := acct, link := link, cat := cat, grp := grp }

/-- SQL LIKE with a pattern of the shape percent-text-percent: substring
containment. -/
def like_contains (hay needle : String) : Bool :=
  needle == "" || (hay.splitOn needle).length != 1

/-- The conjunction of the WHERE clauses of list_transactions applied to one
joined row.  A filter of None is skipped; the account, source_table and
description filters are also skipped on the empty string (Python truthiness);
comparisons against a NULL overlay column are false, as in SQL. -/
def row_matches (filters : TransactionListFilters) (r : JoinedRow) : Bool :=
  (match filters.account with
   | none => true
   | some s => if s == "" then true else r.acct.name == s) &&
  (match filters.start with
   | none => true
   | some s => decide (s ≤ r.tx.date)) &&
  (match filters.end_ with
   | none => true
   | some e => decide (r.tx.date ≤ e)) &&
  (match filters.source_table with
   | none => true
   | some s => if s == "" then true else r.tx.source_table == s) &&
  (match filters.description_contains with
   | none => true
   | some p => if p == "" then true
               else like_contains (py_lower r.tx.description)
                      (py_lower (py_strip p))) &&
  (match filters.amount with
   | none => true
   | some a => r.tx.amount == a) &&
  (match filters.amount_min with
   | none => true
   | some a => decide (a ≤ r.tx.amount)) &&
  (match filters.amount_max with
   | none => true
   | some a => decide (r.tx.amount ≤ a)) &&
  (match filters.group_id with
   | none => true
   | some gid => match r.grp with
     | some g => g.id == gid
     | none => false) &&
  (match filters.group_name with
   | none => true
   | some gn => match r.grp with
     | some g => g.name == gn
     | none => false) &&
  (match filters.category_id with
   | none => true
   | some cid => match r.cat with
     | some c => c.id == cid
     | none => false) &&
  (match filters.category_name with
   | none => true
   | some cn => match r.cat with
     | some c => c.name == cn
     | none => false)

/-- ORDER BY (date ASC, id ASC) on result rows. -/
def row_order_asc (a b : JoinedRow) : Prop :=
  a.tx.date < b.tx.date ∨ (a.tx.date = b.tx.date ∧ a.tx.id ≤ b.tx.id)

/-- ORDER BY (date DESC, id DESC) on result rows. -/
def row_order_desc (a b : JoinedRow) : Prop :=
  b.tx.date < a.tx.date ∨ (a.tx.date = b.tx.date ∧ b.tx.id ≤ a.tx.id)

instance : DecidableRel row_order_asc := fun a b =>
  inferInstanceAs (Decidable (a.tx.date < b.tx.date ∨
    (a.tx.date = b.tx.date ∧ a.tx.id ≤ b.tx.id)))

instance : DecidableRel row_order_desc := fun a b =>
  inferInstanceAs (Decidable (b.tx.date < a.tx.date ∨
    (a.tx.date = b.tx.date ∧ b.tx.id ≤ a.tx.id)))

/-- transactions.py list_transactions: ambiguity and sort-key validation,
join, WHERE filters, ORDER BY date and id, OFFSET then LIMIT. -/
def list_transactions (st : StoreState) (filters : TransactionListFilters) :
    Except ListTransactionsError (List JoinedRow) :=
  if (filters.group_id.isSome || filters.group_name.isSome) &&
     (filters.category_id.isSome || filters.category_name.isSome) then
    .error .ambiguousTaxonomyFilter
  else if !(filters.sort_by == "date") then
    .error .invalidSort
  else if !(filters.sort_dir == "asc" || filters.sort_dir == "desc") then
    .error .invalidSort
  else
    let rows := (joined_rows st).filter (row_matches filters)
    let sorted :=
      if filters.sort_dir == "desc" then List.insertionSort row_order_desc rows
      else List.insertionSort row_order_asc rows
    .ok ((sorted.drop filters.offset).take filters.limit)

/-! Period Resolver consumer (services/analytics.py taxonomy_count). -/

/-- analytics.py taxonomy_count: SELECT count(*) over the inner join of
transactions, transaction_categories, categories and groups, filtered on the
group and category names and the half-open date interval start-inclusive,
end-exclusive.  The model builds the cross product and filters it with the
join and WHERE conditions, then counts. -/
def taxonomy_count_rows (st : StoreState) (group : String) (category : String)
    (start : Int) (end_ : Int) :
    List (Transaction × TransactionCategory × Category × Group) :=
  (st.transactions.flatMap fun t =>
      st.transaction_categories.flatMap fun l =>
        st.categories.flatMap fun cat =>
          st.groups.map fun gr => (t, l, cat, gr)).filter
    fun q =>
      q.2.1.txn_id == q.1.id &&
      q.2.2.1.id == q.2.1.category_id &&
      q.2.2.2.id == q.2.2.1.group_id &&
      q.2.2.2.name == group &&
      q.2.2.1.name == category &&
      decide (start ≤ q.1.date) &&
      decide (q.1.date < end_)

def taxonomy_count (st : StoreState) (group : String) (category : String)
    (start : Int) (end_ : Int) : Nat :=
  (taxonomy_count_rows st group category start end_).length

instance {ε α : Type} [DecidableEq ε] [DecidableEq α] : DecidableEq (Except ε α)
  | .ok a, .ok b =>
    if h : a = b then .isTrue (by rw [h]) else .isFalse (by simp [h])
  | .ok _, .error _ => .isFalse (by simp)
  | .error _, .ok _ => .isFalse (by simp)
  | .error a, .error b =>
    if h : a = b then .isTrue (by rw [h]) else .isFalse (by simp [h])

/-! Concrete store states used to exercise the theorems.  stA carries the two
seeded sentinels (ids 1 and 2 under the reserved Unclassified group), two
user groups, two user categories and one classified transaction. -/

/-- Sample store: sentinels seeded, categories Groceries (id 3, group Food)
and Games (id 4, group Fun), transaction 555 assigned to Groceries. -/
def stA : StoreState :=
  { accounts := [⟨1, "checking"⟩],
    groups := [⟨1, "Unclassified", 0⟩, ⟨2, "Food", 1⟩, ⟨3, "Fun", 2⟩],
    categories :=
      [⟨1, 1, "Uncategorized", "auto", 1⟩, ⟨2, 1, "Deleted Category", "auto", 2⟩,
       ⟨3, 2, "Groceries", "auto", 1⟩, ⟨4, 3, "Games", "auto", 1⟩],
    transactions := [⟨555, 1, 1, 10, "milk", -5, "tbl", "f.csv", 1⟩],
    transaction_categories := [⟨555, 3, 0⟩] }

/-- stA after delete_category_reassign_to_deleted on category 3 at time 7. -/
def stADel : StoreState :=
  { stA with
    categories :=
      [⟨1, 1, "Uncategorized", "auto", 1⟩, ⟨2, 1, "Deleted Category", "auto", 2⟩,
       ⟨4, 3, "Games", "auto", 1⟩],
    transaction_categories := [⟨555, 2, 7⟩] }

/-- stA after rename_category of category 3 to Snacks. -/
def stARen : StoreState :=
  { stA with
    categories :=
      [⟨1, 1, "Uncategorized", "auto", 1⟩, ⟨2, 1, "Deleted Category", "auto", 2⟩,
       ⟨3, 2, "Snacks", "auto", 1⟩, ⟨4, 3, "Games", "auto", 1⟩] }

/-- Assignment totality (spec section 3 invariant): every transaction row has
exactly one transaction_categories row. -/
def AssignTotal (st : StoreState) : Prop :=
  ∀ t ∈ st.transactions,
    st.transaction_categories.countP (fun l => l.txn_id == t.id) = 1

/-- Service-level global uniqueness of normalized category names: two
categories agreeing case-insensitively on their name sit in one group. -/
def GlobalUniqueNames (st : StoreState) : Prop :=
  ∀ c1 ∈ st.categories, ∀ c2 ∈ st.categories,
    py_lower c1.name = py_lower c2.name → c1.group_id = c2.group_id

instance (st : StoreState) : Decidable (AssignTotal st) :=
  inferInstanceAs (Decidable (∀ t ∈ st.transactions,
    st.transaction_categories.countP (fun l => l.txn_id == t.id) = 1))

instance (st : StoreState) : Decidable (GlobalUniqueNames st) :=
  inferInstanceAs (Decidable (∀ c1 ∈ st.categories, ∀ c2 ∈ st.categories,
    py_lower c1.name = py_lower c2.name → c1.group_id = c2.group_id))

/-! Ordering facts for the sort relations. -/

theorem chars_le_total : ∀ a b : List Char,
    chars_le a b = true ∨ chars_le b a = true := by
  intro a
  induction a with
  | nil => intro b; left; rfl
  | cons x xs ih =>
    intro b
    cases b with
    | nil => right; rfl
    | cons y ys =>
      simp only [chars_le]
      rcases Nat.lt_trichotomy x.val.toNat y.val.toNat with h | h | h
      · left; simp [h]
      · rcases ih ys with h2 | h2
        · left; simp [h, h2]
        · right; simp [h, h2]
      · right; simp [h, Nat.lt_asymm h]

theorem chars_le_trans : ∀ a b c : List Char,
    chars_le a b = true → chars_le b c = true → chars_le a c = true := by
  intro a
  induction a with
  | nil => intro b c _ _; rfl
  | cons x xs ih =>
    intro b c hab hbc
    cases b with
    | nil => simp [chars_le] at hab
    | cons y ys =>
      cases c with
      | nil => simp [chars_le] at hbc
      | cons z zs =>
        simp only [chars_le] at hab hbc ⊢
        split at hab
        · rename_i h1
          split at hbc
          · rename_i h2; simp [Nat.lt_trans h1 h2]
          · split at hbc
            · exact absurd hbc (by simp)
            · rename_i h2 h3
              have : y.val.toNat = z.val.toNat := by omega
              simp [this ▸ h1]
        · split at hab
          · exact absurd hab (by simp)
          · rename_i h1 h2
            have hxy : x.val.toNat = y.val.toNat := by omega
            split at hbc
            · rename_i h3; simp [hxy ▸ h3]
            · split at hbc
              · exact absurd hbc (by simp)
              · rename_i h3 h4
                have hyz : y.val.toNat = z.val.toNat := by omega
                have hnlt : ¬ x.val.toNat < z.val.toNat := by omega
                simp [hnlt, hxy, hyz, ih ys zs hab hbc]

theorem string_le_total (a b : String) :
    string_le a b = true ∨ string_le b a = true :=
  chars_le_total a.data b.data

theorem string_le_trans {a b c : String} (h1 : string_le a b = true)
    (h2 : string_le b c = true) : string_le a c = true :=
  chars_le_trans a.data b.data c.data h1 h2

instance : IsTotal Group group_order := by
  constructor
  intro a b
  rcases lt_trichotomy a.sort_order b.sort_order with h | h | h
  · exact Or.inl (Or.inl h)
  · rcases string_le_total a.name b.name with hn | hn
    · exact Or.inl (Or.inr ⟨h, hn⟩)
    · exact Or.inr (Or.inr ⟨h.symm, hn⟩)
  · exact Or.inr (Or.inl h)

instance : IsTrans Group group_order := by
  constructor
  intro a b c hab hbc
  rcases hab with h1 | ⟨e1, n1⟩
  · rcases hbc with h2 | ⟨e2, _⟩
    · exact Or.inl (h1.trans h2)
    · exact Or.inl (e2 ▸ h1)
  · rcases hbc with h2 | ⟨e2, n2⟩
    · exact Or.inl (e1 ▸ h2)
    · exact Or.inr ⟨e1.trans e2, string_le_trans n1 n2⟩

theorem category_order_total (a b : Category) :
    category_order a b ∨ category_order b a := by
  rcases lt_trichotomy a.sort_order b.sort_order with h | h | h
  · exact Or.inl (Or.inl h)
  · rcases string_le_total a.name b.name with hn | hn
    · exact Or.inl (Or.inr ⟨h, hn⟩)
    · exact Or.inr (Or.inr ⟨h.symm, hn⟩)
  · exact Or.inr (Or.inl h)

theorem category_order_trans {a b c : Category} (hab : category_order a b)
    (hbc : category_order b c) : category_order a c := by
  rcases hab with h1 | ⟨e1, n1⟩
  · rcases hbc with h2 | ⟨e2, _⟩
    · exact Or.inl (h1.trans h2)
    · exact Or.inl (e2 ▸ h1)
  · rcases hbc with h2 | ⟨e2, n2⟩
    · exact Or.inl (e1 ▸ h2)
    · exact Or.inr ⟨e1.trans e2, string_le_trans n1 n2⟩

instance : IsTotal Category category_global_order := by
  constructor
  intro a b
  rcases lt_trichotomy a.group_id b.group_id with h | h | h
  · exact Or.inl (Or.inl h)
  · rcases category_order_total a b with hc | hc
    · exact Or.inl (Or.inr ⟨h, hc⟩)
    · exact Or.inr (Or.inr ⟨h.symm, hc⟩)
  · exact Or.inr (Or.inl h)

instance : IsTrans Category category_global_order := by
  constructor
  intro a b c hab hbc
  rcases hab with h1 | ⟨e1, n1⟩
  · rcases hbc with h2 | ⟨e2, _⟩
    · exact Or.inl (h1.trans h2)
    · exact Or.inl (e2 ▸ h1)
  · rcases hbc with h2 | ⟨e2, n2⟩
    · exact Or.inl (e1 ▸ h2)
    · exact Or.inr ⟨e1.trans e2, category_order_trans n1 n2⟩

/-- Claim C8: taxonomy_map returns all groups sorted by (sort_order asc,
name asc), each paired with exactly its own categories sorted by
(sort_order asc, name asc); two categories of one group with equal
sort_order appear in ascending name order. -/
theorem taxonomy_map_returns_sorted_groups_and_categories (st : StoreState) :
    ((taxonomy_map st).map Prod.fst).Perm st.groups ∧
    List.Pairwise group_order ((taxonomy_map st).map Prod.fst) ∧
    ∀ p ∈ taxonomy_map st,
      p.2.Perm (st.categories.filter fun c => c.group_id == p.1.id) ∧
      List.Pairwise category_order p.2 ∧
      List.Pairwise
        (fun c1 c2 => c1.sort_order = c2.sort_order →
          string_le c1.name c2.name = true) p.2 := by
  have hmapfst : (taxonomy_map st).map Prod.fst =
      List.insertionSort group_order st.groups := by
    unfold taxonomy_map
    rw [List.map_map]
    exact List.map_id _
  refine ⟨?_, ?_, ?_⟩
  · rw [hmapfst]; exact List.perm_insertionSort _ _
  · rw [hmapfst]; exact List.sorted_insertionSort _ _
  · intro p hp
    unfold taxonomy_map at hp
    rcases List.mem_map.mp hp with ⟨g, _, rfl⟩
    dsimp only
    have hsorted : List.Pairwise category_global_order
        (List.insertionSort category_global_order st.categories) :=
      List.sorted_insertionSort _ _
    have hpair : List.Pairwise category_global_order
        ((List.insertionSort category_global_order st.categories).filter
          fun c => c.group_id == g.id) :=
      hsorted.sublist (List.filter_sublist _)
    have hord : List.Pairwise category_order
        ((List.insertionSort category_global_order st.categories).filter
          fun c => c.group_id == g.id) := by
      refine List.Pairwise.imp_of_mem ?_ hpair
      intro a b ha hb hab
      have ha' : a.group_id = g.id := by
        simpa using (List.mem_filter.mp ha).2
      have hb' : b.group_id = g.id := by
        simpa using (List.mem_filter.mp hb).2
      rcases hab with h | ⟨_, hc⟩
      · exact absurd h (by rw [ha', hb']; exact lt_irrefl _)
      · exact hc
    refine ⟨?_, hord, ?_⟩
    · exact (List.perm_insertionSort category_global_order st.categories).filter _
    · refine hord.imp ?_
      intro a b hc hso
      rcases hc with h | ⟨_, hle⟩
      · exact absurd h (by rw [hso]; exact lt_irrefl _)
      · exact hle

/-- Claim C8 witness: the theorem applied to the sample store stA. -/
theorem taxonomy_map_returns_sorted_groups_and_categories_witness :
    List.Pairwise category_order
      [Category.mk 1 1 "Uncategorized" "auto" 1,
       Category.mk 2 1 "Deleted Category" "auto" 2] :=
  ((taxonomy_map_returns_sorted_groups_and_categories stA).2.2
    (⟨1, "Unclassified", 0⟩,
      [Category.mk 1 1 "Uncategorized" "auto" 1,
       Category.mk 2 1 "Deleted Category" "auto" 2])
    (by decide)).2.1

/-! Inversion and frame lemmas for the mutating operations. -/

theorem delete_ok_inv {st : StoreState} {cid : Nat} {now : Int}
    {r : Nat × String × Nat} {st' : StoreState}
    (h : delete_category_reassign_to_deleted st cid now = .ok (r, st')) :
    ∃ c did, st.categories.find? (fun x => x.id == cid) = some c ∧
      is_protected_category_id st cid = false ∧
      get_deleted_category_id st = .ok did ∧
      r = (st.transaction_categories.countP (fun l => l.category_id == cid),
        c.name, did) ∧
      st' = { st with
        transaction_categories := st.transaction_categories.map fun l =>
          if l.category_id == cid then
            { l with category_id := did, assigned_at := now }
          else l,
        categories := st.categories.filter fun x => !(x.id == cid) } := by
  unfold delete_category_reassign_to_deleted at h
  split at h
  · cases h
  · rename_i c hfind
    split at h
    · cases h
    · rename_i hprot
      split at h
      · cases h
      · rename_i did hget
        cases h
        exact ⟨c, did, hfind, by simpa using hprot, hget, rfl, rfl⟩

theorem rename_ok_inv {st : StoreState} {cid : Nat} {nm : String}
    {r : Category × Bool} {st' : StoreState}
    (h : rename_category st cid nm = .ok (r, st')) :
    normalize_category_name nm ≠ "" ∧
    ∃ c, st.categories.find? (fun x => x.id == cid) = some c ∧
      is_protected_category_id st cid = false ∧
      ((py_lower c.name = py_lower (normalize_category_name nm) ∧
        r = (c, false) ∧ st' = st) ∨
       (py_lower c.name ≠ py_lower (normalize_category_name nm) ∧
        (st.categories.find? fun x =>
          py_lower x.name == py_lower (normalize_category_name nm) &&
          !(x.id == cid)) = none ∧
        r = ({ c with name := normalize_category_name nm }, true) ∧
        st' = { st with categories := st.categories.map fun x =>
          if x.id == cid then { x with name := normalize_category_name nm }
          else x })) := by
  cases hne : (normalize_category_name nm == "") with
  | true => simp [rename_category, hne] at h
  | false =>
    cases hfind : st.categories.find? (fun x => x.id == cid) with
    | none => simp [rename_category, hne, hfind] at h
    | some c =>
      cases hprot : is_protected_category_id st cid with
      | true => simp [rename_category, hne, hfind, hprot] at h
      | false =>
        cases hnoop : (py_lower c.name == py_lower (normalize_category_name nm)) with
        | true =>
          simp only [rename_category, hne, hfind, hprot, hnoop,
            Bool.false_eq_true, if_false, if_true, Except.ok.injEq,
            Prod.mk.injEq] at h
          exact ⟨by simpa using hne, c, rfl, rfl,
            Or.inl ⟨by simpa using hnoop, by rw [← h.1], by rw [← h.2]⟩⟩
        | false =>
          cases hconf : (st.categories.find? fun x =>
              py_lower x.name == py_lower (normalize_category_name nm) &&
              !(x.id == cid)) with
          | some c2 =>
            simp [rename_category, hne, hfind, hprot, hnoop, hconf] at h
          | none =>
            simp only [rename_category, hne, hfind, hprot, hnoop, hconf,
              Option.isSome_none, Bool.false_eq_true, if_false, if_true,
              Except.ok.injEq, Prod.mk.injEq] at h
            exact ⟨by simpa using hne, c, rfl, rfl,
              Or.inr ⟨by simpa using hnoop, rfl, by rw [← h.1],
                by rw [← h.2]⟩⟩

theorem move_ok_frame {st : StoreState} {cid tg : Nat} {so : Option Int}
    {r : Category × Bool} {st' : StoreState}
    (h : move_category_to_group st cid tg so = .ok (r, st')) :
    st'.transactions = st.transactions ∧
    st'.transaction_categories = st.transaction_categories ∧
    st'.groups = st.groups ∧ st'.accounts = st.accounts := by
  unfold move_category_to_group at h
  split at h
  · cases h
  · split at h
    · cases h
    · split at h
      · cases h
      · split at h
        · cases h; exact ⟨rfl, rfl, rfl, rfl⟩
        · cases h; exact ⟨rfl, rfl, rfl, rfl⟩

theorem create_ok_frame {st : StoreState} {gid : Nat} {nm : String}
    {so : Option Int} {rc : String} {nid : Nat}
    {r : Category × Bool} {st' : StoreState}
    (h : create_category_in_existing_group_id st gid nm so rc nid = .ok (r, st')) :
    st'.transactions = st.transactions ∧
    st'.transaction_categories = st.transaction_categories ∧
    st'.groups = st.groups ∧ st'.accounts = st.accounts := by
  cases hne : (normalize_category_name nm == "") with
  | true => simp [create_category_in_existing_group_id, hne] at h
  | false =>
    cases hso : (match so with | some s => decide (s < 0) | none => false) with
    | true => simp [create_category_in_existing_group_id, hne, hso] at h
    | false =>
      cases hrc : normalize_report_class rc with
      | error e =>
        simp [create_category_in_existing_group_id, hne, hso, hrc] at h
      | ok nrc =>
        cases hg : st.groups.find? (fun g => g.id == gid) with
        | none =>
          simp [create_category_in_existing_group_id, hne, hso, hrc, hg] at h
        | some grp =>
          cases hsame : st.categories.find? (fun c =>
              c.group_id == grp.id &&
              py_lower c.name == py_lower (normalize_category_name nm)) with
          | some ex =>
            simp only [create_category_in_existing_group_id, hne, hso, hrc,
              hg, hsame, Bool.false_eq_true, if_false, Except.ok.injEq,
              Prod.mk.injEq] at h
            rw [← h.2]
            exact ⟨rfl, rfl, rfl, rfl⟩
          | none =>
            cases hany : (st.categories.find? fun c =>
                st.groups.any (fun g => g.id == c.group_id) &&
                py_lower c.name == py_lower (normalize_category_name nm)) with
            | some ex2 =>
              simp [create_category_in_existing_group_id, hne, hso, hrc, hg,
                hsame, hany] at h
            | none =>
              simp only [create_category_in_existing_group_id, hne, hso, hrc,
                hg, hsame, hany, Option.isSome_none, Bool.false_eq_true,
                if_false, Except.ok.injEq, Prod.mk.injEq] at h
              rw [← h.2]
              exact ⟨rfl, rfl, rfl, rfl⟩

theorem assign_ok_inv {st : StoreState} {tid cid : Nat} {now : Int}
    {r : Bool × String} {st' : StoreState}
    (h : assign_transaction_category st tid cid now = .ok (r, st')) :
    ∃ t0, st.transactions.find? (fun t => t.id == tid) = some t0 ∧
      (st.categories.find? (fun c => c.id == cid)).isSome ∧
      is_protected_category_id st cid = false ∧
      ((st.transaction_categories.find? (fun l => l.txn_id == tid) = none ∧
        r = (true, "Transaction category assigned") ∧
        st' = { st with transaction_categories := st.transaction_categories ++
          [{ txn_id := tid, category_id := cid, assigned_at := now }] }) ∨
       ((st.transaction_categories.find? (fun l => l.txn_id == tid)).isSome ∧
        r = (false, "Transaction category updated") ∧
        st' = { st with transaction_categories :=
          st.transaction_categories.map fun l =>
            if l.txn_id == tid then
              { l with category_id := cid, assigned_at := now }
            else l })) := by
  unfold assign_transaction_category at h
  split at h
  · cases h
  · rename_i t0 hft
    split at h
    · cases h
    · rename_i c0 hfc
      split at h
      · cases h
      · rename_i hprot
        split at h
        · rename_i hlink
          cases h
          exact ⟨t0, hft, by simp [hfc], by simpa using hprot,
            Or.inl ⟨hlink, rfl, rfl⟩⟩
        · rename_i l0 hlink
          cases h
          exact ⟨t0, hft, by simp [hfc], by simpa using hprot,
            Or.inr ⟨by simp [hlink], rfl, rfl⟩⟩

/-! Arithmetic helpers about the mutated assignment lists. -/

theorem countP_map_txn_id (L : List TransactionCategory)
    (f : TransactionCategory → TransactionCategory)
    (hf : ∀ l, (f l).txn_id = l.txn_id) (tid : Nat) :
    (L.map f).countP (fun l => l.txn_id == tid) =
      L.countP (fun l => l.txn_id == tid) := by
  rw [List.countP_map]
  exact List.countP_congr fun a _ => by simp [Function.comp, hf a]

theorem assignTotal_of_frame {st st' : StoreState} (h : AssignTotal st)
    (ht : st'.transactions = st.transactions)
    (hl : st'.transaction_categories = st.transaction_categories) :
    AssignTotal st' := by
  intro t htm
  rw [hl]
  exact h t (ht ▸ htm)

theorem deleted_id_is_protected {st : StoreState} {did : Nat}
    (h : get_deleted_category_id st = .ok did) :
    is_protected_category_id st did = true := by
  unfold get_deleted_category_id at h
  split at h
  · rename_i c hfind
    cases h
    have hmem := List.mem_of_find?_eq_some hfind
    have hpred := List.find?_some hfind
    simp only [Bool.and_eq_true, beq_iff_eq] at hpred
    unfold is_protected_category_id
    rw [List.any_eq_true]
    refine ⟨c, hmem, ?_⟩
    simp [hpred.1, hpred.2, PROTECTED_CATEGORY_NAMES]
  · cases h

theorem foldl_max_le {l : List Int} : ∀ {a x : Int}, x ∈ l ∨ x ≤ a →
    x ≤ l.foldl max a := by
  induction l with
  | nil =>
    intro a x hx
    rcases hx with h | h
    · cases h
    · simpa using h
  | cons y ys ih =>
    intro a x hx
    show x ≤ ys.foldl max (max a y)
    rcases hx with h | h
    · rcases List.mem_cons.mp h with rfl | h2
      · exact ih (Or.inr (le_max_right a x))
      · exact ih (Or.inl h2)
    · exact ih (Or.inr (h.trans (le_max_left a y)))

theorem foldl_max_mem (l : List Int) : ∀ a : Int,
    l.foldl max a = a ∨ l.foldl max a ∈ l := by
  induction l with
  | nil => intro a; left; rfl
  | cons y ys ih =>
    intro a
    show ys.foldl max (max a y) = a ∨ ys.foldl max (max a y) ∈ y :: ys
    rcases ih (max a y) with h | h
    · rcases max_choice a y with hm | hm
      · left; rw [h, hm]
      · right; rw [h, hm]; exact List.mem_cons_self y ys
    · right; exact List.mem_cons_of_mem y h

theorem le_coalesce_max_sort {l : List Int} {x : Int} (hx : x ∈ l) :
    x ≤ coalesce_max_sort l := by
  cases l with
  | nil => cases hx
  | cons y ys =>
    show x ≤ ys.foldl max y
    rcases List.mem_cons.mp hx with rfl | h
    · exact foldl_max_le (Or.inr le_rfl)
    · exact foldl_max_le (Or.inl h)

theorem coalesce_max_sort_mem {l : List Int} (h : l ≠ []) :
    coalesce_max_sort l ∈ l := by
  cases l with
  | nil => exact absurd rfl h
  | cons y ys =>
    show ys.foldl max y ∈ y :: ys
    rcases foldl_max_mem ys y with h2 | h2
    · rw [h2]; exact List.mem_cons_self y ys
    · exact List.mem_cons_of_mem y h2

/-- Claim C1: assignment totality — if every transaction has exactly one
assignment row, this still holds after any successful taxonomy mutation
(createCategory, renameCategory, moveCategory, assignCategory,
deleteCategory); moreover deleteCategory keeps every assignment row (same
count, each repointed row still present with its txn key) and repoints the
rows of the deleted category to the Deleted Category sentinel id it
returns. -/
theorem assignment_totality_preserved (st : StoreState) (h : AssignTotal st) :
    (∀ gid nm so rc nid r st',
      create_category_in_existing_group_id st gid nm so rc nid = .ok (r, st') →
      AssignTotal st') ∧
    (∀ cid nm r st', rename_category st cid nm = .ok (r, st') →
      AssignTotal st') ∧
    (∀ cid tg so r st', move_category_to_group st cid tg so = .ok (r, st') →
      AssignTotal st') ∧
    (∀ tid cid now r st',
      assign_transaction_category st tid cid now = .ok (r, st') →
      AssignTotal st') ∧
    (∀ cid now n nm did st',
      delete_category_reassign_to_deleted st cid now = .ok ((n, nm, did), st') →
      AssignTotal st' ∧
      st'.transaction_categories.length = st.transaction_categories.length ∧
      (∀ l ∈ st.transaction_categories, l.category_id = cid →
        { l with category_id := did, assigned_at := now } ∈
          st'.transaction_categories)) := by
  refine ⟨?_, ?_, ?_, ?_, ?_⟩
  · intro gid nm so rc nid r st' hok
    obtain ⟨ht, hl, -, -⟩ := create_ok_frame hok
    exact assignTotal_of_frame h ht hl
  · intro cid nm r st' hok
    obtain ⟨-, c, -, -, hcase⟩ := rename_ok_inv hok
    rcases hcase with ⟨-, -, rfl⟩ | ⟨-, -, -, rfl⟩
    · exact h
    · exact assignTotal_of_frame h rfl rfl
  · intro cid tg so r st' hok
    obtain ⟨ht, hl, -, -⟩ := move_ok_frame hok
    exact assignTotal_of_frame h ht hl
  · intro tid cid now r st' hok
    obtain ⟨t0, hft, -, -, hcase⟩ := assign_ok_inv hok
    have ht0 : t0 ∈ st.transactions := List.mem_of_find?_eq_some hft
    have ht0id : t0.id = tid := by
      simpa using List.find?_some hft
    rcases hcase with ⟨hnone, -, rfl⟩ | ⟨hsome, -, rfl⟩
    · exfalso
      have hzero : st.transaction_categories.countP
          (fun l => l.txn_id == t0.id) = 0 := by
        refine List.countP_eq_zero.mpr ?_
        intro l hl
        have := List.find?_eq_none.mp hnone l hl
        simpa [ht0id] using this
      have hone := h t0 ht0
      rw [hzero] at hone
      cases hone
    · intro t ht
      dsimp only at ht ⊢
      rw [countP_map_txn_id]
      · exact h t ht
      · intro l
        by_cases hc : (l.txn_id == tid) = true <;> simp [hc]
  · intro cid now n nm did st' hok
    obtain ⟨c, did2, -, -, -, hr, rfl⟩ := delete_ok_inv hok
    have hdid : did = did2 := by
      have := congrArg (fun p => p.2.2) hr
      simpa using this
    subst hdid
    refine ⟨?_, ?_, ?_⟩
    · intro t ht
      dsimp only at ht ⊢
      rw [countP_map_txn_id]
      · exact h t ht
      · intro l
        by_cases hc : (l.category_id == cid) = true <;> simp [hc]
    · exact List.length_map _ _
    · intro l hl hcat
      dsimp only
      have : (fun x : TransactionCategory =>
          if x.category_id == cid then
            { x with category_id := did, assigned_at := now }
          else x) l = { l with category_id := did, assigned_at := now } := by
        simp [hcat]
      rw [← this]
      exact List.mem_map_of_mem _ hl

/-- Claim C1 witness: totality holds on stA and is preserved by the concrete
delete of category 3. -/
theorem assignment_totality_preserved_witness :
    AssignTotal stA ∧ AssignTotal stADel ∧
    stADel.transaction_categories.length =
      stA.transaction_categories.length :=
  have hres := (assignment_totality_preserved stA (by decide)).2.2.2.2
    3 7 1 "Groceries" 2 stADel rfl
  ⟨by decide, hres.1, hres.2.1⟩

/-- Claim C2: deleteCategory on an existing, non-protected category C with N
referencing assignments atomically repoints all N assignment rows to the
Deleted Category sentinel (refreshing assigned_at), removes C's category row,
and returns exactly (N, C's prior name, the sentinel id); it fails NotFound
when C is missing, Protected when C is a sentinel and FatalInvariant
(SentinelCategoryMissingError) when the sentinel is absent. -/
theorem delete_category_contract (st : StoreState) (cid : Nat) (now : Int) :
    (∀ c did, st.categories.find? (fun x => x.id == cid) = some c →
      is_protected_category_id st cid = false →
      get_deleted_category_id st = .ok did →
      ∃ st', delete_category_reassign_to_deleted st cid now =
          .ok ((st.transaction_categories.countP
            (fun l => l.category_id == cid), c.name, did), st') ∧
        cid ≠ did ∧
        st'.transaction_categories.length =
          st.transaction_categories.length ∧
        (∀ l ∈ st'.transaction_categories, l.category_id ≠ cid) ∧
        (∀ l ∈ st.transaction_categories, l.category_id = cid →
          { l with category_id := did, assigned_at := now } ∈
            st'.transaction_categories) ∧
        (∀ l ∈ st.transaction_categories, l.category_id ≠ cid →
          l ∈ st'.transaction_categories) ∧
        (∀ x ∈ st'.categories, x.id ≠ cid) ∧
        (∀ p ∈ taxonomy_map st', ∀ x ∈ p.2, x.id ≠ cid)) ∧
    (st.categories.find? (fun x => x.id == cid) = none →
      delete_category_reassign_to_deleted st cid now = .error .notFound) ∧
    (∀ c, st.categories.find? (fun x => x.id == cid) = some c →
      is_protected_category_id st cid = true →
      delete_category_reassign_to_deleted st cid now =
        .error .protectedCategory) ∧
    (∀ c, st.categories.find? (fun x => x.id == cid) = some c →
      is_protected_category_id st cid = false →
      get_deleted_category_id st = .error .sentinelMissing →
      delete_category_reassign_to_deleted st cid now =
        .error .sentinelMissing) := by
  refine ⟨?_, ?_, ?_, ?_⟩
  · intro c did hfind hprot hsent
    have hdidprot := deleted_id_is_protected hsent
    have hne : cid ≠ did := by
      intro heq
      rw [heq, hdidprot] at hprot
      cases hprot
    refine ⟨{ st with
        transaction_categories := st.transaction_categories.map fun l =>
          if l.category_id == cid then
            { l with category_id := did, assigned_at := now }
          else l,
        categories := st.categories.filter fun x => !(x.id == cid) },
      ?_, hne, ?_, ?_, ?_, ?_, ?_, ?_⟩
    · unfold delete_category_reassign_to_deleted
      rw [hfind, hprot, hsent]
      rfl
    · exact List.length_map _ _
    · intro l hl
      rcases List.mem_map.mp hl with ⟨l0, -, rfl⟩
      by_cases hc : (l0.category_id == cid) = true
      · simp only [hc, if_true]
        exact fun hx => hne (by rw [← hx])
      · rw [Bool.not_eq_true] at hc
        simp only [hc, Bool.false_eq_true, if_false]
        intro hx
        rw [hx] at hc
        simp at hc
    · intro l hl hcat
      have : (fun x : TransactionCategory =>
          if x.category_id == cid then
            { x with category_id := did, assigned_at := now }
          else x) l = { l with category_id := did, assigned_at := now } := by
        simp [hcat]
      dsimp only
      rw [← this]
      exact List.mem_map_of_mem _ hl
    · intro l hl hcat
      have : (fun x : TransactionCategory =>
          if x.category_id == cid then
            { x with category_id := did, assigned_at := now }
          else x) l = l := by
        simp [hcat]
      dsimp only
      rw [← this]
      exact List.mem_map_of_mem _ hl
    · intro x hx
      have := (List.mem_filter.mp hx).2
      simpa using this
    · intro p hp x hx
      unfold taxonomy_map at hp
      rcases List.mem_map.mp hp with ⟨g, -, rfl⟩
      have hx2 := (List.mem_filter.mp hx).1
      have hx3 := List.mem_insertionSort category_global_order |>.mp hx2
      have := (List.mem_filter.mp hx3).2
      simpa using this
  · intro hfind
    unfold delete_category_reassign_to_deleted
    rw [hfind]
  · intro c hfind hprot
    unfold delete_category_reassign_to_deleted
    rw [hfind, hprot]
    rfl
  · intro c hfind hprot hsent
    unfold delete_category_reassign_to_deleted
    rw [hfind, hprot, hsent]
    rfl

/-- Claim C2 witness: the contract at stA deleting category 3 (one
assignment) and the NotFound case at a missing id. -/
theorem delete_category_contract_witness :
    (∃ st', delete_category_reassign_to_deleted stA 3 7 =
      .ok ((1, "Groceries", 2), st')) ∧
    delete_category_reassign_to_deleted stA 99 7 = .error .notFound := by
  constructor
  · obtain ⟨st', heq, -⟩ := (delete_category_contract stA 3 7).1
      ⟨3, 2, "Groceries", "auto", 1⟩ 2 (by decide) (by decide) (by decide)
    exact ⟨st', heq⟩
  · exact (delete_category_contract stA 99 7).2.1 (by decide)

/-- Claim C3 counterexample: on stA, category 1 (Uncategorized) is a
protected sentinel, yet renameCategory with a whitespace-only new name fails
Validation, not Protected — the protection outcome is not independent of the
other arguments' validity. -/
theorem protection_not_independent_counterexample :
    is_protected_category_id stA 1 = true ∧
    rename_category stA 1 "   " = .error .validation ∧
    TaxonomyError.validation ≠ TaxonomyError.protectedCategory := by
  decide

/-- Claim C3 amended: rename, move and delete on an existing sentinel always
fail Protected regardless of the other arguments' validity, except that
renameCategory validates the new name first: a new name that is empty after
trimming fails Validation even on a sentinel. -/
theorem protection_invariant_amended (st : StoreState) (cid : Nat)
    (c : Category)
    (hfind : st.categories.find? (fun x => x.id == cid) = some c)
    (hprot : is_protected_category_id st cid = true) :
    (∀ now, delete_category_reassign_to_deleted st cid now =
      .error .protectedCategory) ∧
    (∀ tg so, move_category_to_group st cid tg so =
      .error .protectedCategory) ∧
    (∀ nm, normalize_category_name nm ≠ "" →
      rename_category st cid nm = .error .protectedCategory) ∧
    (∀ nm, normalize_category_name nm = "" →
      rename_category st cid nm = .error .validation) := by
  refine ⟨?_, ?_, ?_, ?_⟩
  · intro now
    unfold delete_category_reassign_to_deleted
    rw [hfind, hprot]
    rfl
  · intro tg so
    unfold move_category_to_group
    rw [hfind, hprot]
    rfl
  · intro nm hne
    have hb : (normalize_category_name nm == "") = false := by
      simpa using hne
    simp [rename_category, hb, hfind, hprot]
  · intro nm hemp
    have hb : (normalize_category_name nm == "") = true := by
      simpa using hemp
    simp [rename_category, hb]

/-- Claim C3 witness: the amended protection facts at the Uncategorized
sentinel of stA. -/
theorem protection_invariant_amended_witness :
    delete_category_reassign_to_deleted stA 1 0 = .error .protectedCategory ∧
    move_category_to_group stA 1 99 none = .error .protectedCategory ∧
    rename_category stA 1 "x" = .error .protectedCategory ∧
    rename_category stA 1 " " = .error .validation := by
  have h := protection_invariant_amended stA 1 ⟨1, 1, "Uncategorized", "auto", 1⟩
    (by decide) (by decide)
  exact ⟨h.1 0, h.2.1 99 none, h.2.2.1 "x" (by decide), h.2.2.2 " " (by decide)⟩

/-- Claim C4 counterexample: on stA the Deleted Category sentinel (id 2) is
protected, yet the classification-router handler set_transaction_category —
a direct user assignment entry point — succeeds and repoints transaction
555's assignment row to the sentinel. -/
theorem sentinel_assignable_via_router_counterexample :
    is_protected_category_id stA 2 = true ∧
    set_transaction_category stA 555 2 9 =
      .ok ({ txn_id := 555, category_id := 2,
             category_name := "Deleted Category",
             category_report_class := "auto", group_id := 1,
             group_name := "Unclassified", assigned_at := 9 },
        { stA with transaction_categories := [⟨555, 2, 9⟩] }) := by
  decide

/-- Claim C4 amended: the service entry point assign_transaction_category
fails NotFound when the transaction or the category is missing and fails
Validation — changing no assignment row — when the target category is a
protected sentinel; the legacy router handler set_transaction_category,
however, performs the assignment without any protection check, so a sentinel
can be assigned through that direct entry point. -/
theorem assign_category_sentinel_rules (st : StoreState) (tid cid : Nat)
    (now : Int) :
    (st.transactions.find? (fun t => t.id == tid) = none →
      assign_transaction_category st tid cid now = .error .notFound) ∧
    (∀ t0, st.transactions.find? (fun t => t.id == tid) = some t0 →
      st.categories.find? (fun c => c.id == cid) = none →
      assign_transaction_category st tid cid now = .error .notFound) ∧
    (∀ t0 c0, st.transactions.find? (fun t => t.id == tid) = some t0 →
      st.categories.find? (fun c => c.id == cid) = some c0 →
      is_protected_category_id st cid = true →
      assign_transaction_category st tid cid now = .error .validation) ∧
    (∀ t0 c0 l0 g0,
      st.transactions.find? (fun t => t.id == tid) = some t0 →
      st.categories.find? (fun c => c.id == cid) = some c0 →
      st.transaction_categories.find? (fun l => l.txn_id == tid) = some l0 →
      st.groups.find? (fun g => g.id == c0.group_id) = some g0 →
      set_transaction_category st tid cid now =
        .ok ({ txn_id := tid, category_id := c0.id,
               category_name := c0.name,
               category_report_class := c0.report_class,
               group_id := g0.id, group_name := g0.name,
               assigned_at := now },
          { st with transaction_categories :=
            st.transaction_categories.map fun l =>
              if l.txn_id == tid then
                { l with category_id := c0.id, assigned_at := now }
              else l })) := by
  refine ⟨?_, ?_, ?_, ?_⟩
  · intro hft
    unfold assign_transaction_category
    rw [hft]
  · intro t0 hft hfc
    unfold assign_transaction_category
    rw [hft, hfc]
  · intro t0 c0 hft hfc hprot
    unfold assign_transaction_category
    rw [hft, hfc, hprot]
    rfl
  · intro t0 c0 l0 g0 hft hfc hlink hg
    unfold set_transaction_category
    rw [hft, hfc]
    simp only [hlink, hg]

/-- Claim C4 witness: the service rejects assigning the Deleted Category
sentinel to transaction 555 of stA with a Validation error, and rejects a
missing transaction with NotFound. -/
theorem assign_category_sentinel_rules_witness :
    assign_transaction_category stA 555 2 9 = .error .validation ∧
    assign_transaction_category stA 777 3 9 = .error .notFound := by
  constructor
  · exact (assign_category_sentinel_rules stA 555 2 9).2.2.1
      ⟨555, 1, 1, 10, "milk", -5, "tbl", "f.csv", 1⟩
      ⟨2, 1, "Deleted Category", "auto", 2⟩ (by decide) (by decide) (by decide)
  · exact (assign_category_sentinel_rules stA 777 3 9).1 (by decide)

/-- Claim C5: createCategory is idempotent per group and defaults the sort
key: with the group present and a valid non-empty name, if a category with
the same normalized name (case-insensitive) already exists in the group, the
call returns that category unchanged with created=false and touches nothing;
if no category anywhere carries the normalized name and sortOrder is
omitted, the call returns created=true and the new category's sort_order is
strictly above every sort_order in the group, equal to some member's
sort_order plus one when the group is non-empty and exactly 1 when the
group is empty. -/
theorem create_category_idempotent_and_sort_default (st : StoreState)
    (gid : Nat) (nm : String) (nid : Nat) (grp : Group)
    (hgrp : st.groups.find? (fun g => g.id == gid) = some grp)
    (hne : normalize_category_name nm ≠ "") :
    (∀ c0, st.categories.find? (fun c =>
        c.group_id == grp.id &&
        py_lower c.name == py_lower (normalize_category_name nm)) = some c0 →
      create_category_in_existing_group_id st gid nm none "auto" nid =
        .ok ((c0, false), st)) ∧
    ((∀ c ∈ st.categories,
        py_lower c.name ≠ py_lower (normalize_category_name nm)) →
      ∃ cat st',
        create_category_in_existing_group_id st gid nm none "auto" nid =
          .ok ((cat, true), st') ∧
        cat.id = nid ∧ cat.group_id = grp.id ∧
        cat.name = normalize_category_name nm ∧
        st'.categories = st.categories ++ [cat] ∧
        (∀ c ∈ st.categories, c.group_id = grp.id →
          c.sort_order < cat.sort_order) ∧
        (st.categories.filter (fun c => c.group_id == grp.id) = [] →
          cat.sort_order = 1) ∧
        (st.categories.filter (fun c => c.group_id == grp.id) ≠ [] →
          ∃ c ∈ st.categories.filter (fun c => c.group_id == grp.id),
            cat.sort_order = c.sort_order + 1)) := by
  have hb : (normalize_category_name nm == "") = false := by simpa using hne
  have hauto : normalize_report_class "auto" = .ok "auto" := rfl
  constructor
  · intro c0 hsame
    simp [create_category_in_existing_group_id, hb, hgrp, hsame, hauto]
  · intro hnone
    have hsame : st.categories.find? (fun c =>
        c.group_id == grp.id &&
        py_lower c.name == py_lower (normalize_category_name nm)) = none := by
      refine List.find?_eq_none.mpr ?_
      intro c hc
      simp only [Bool.and_eq_true, beq_iff_eq, not_and]
      intro _
      exact hnone c hc
    have hany : (st.categories.find? fun c =>
        st.groups.any (fun g => g.id == c.group_id) &&
        py_lower c.name == py_lower (normalize_category_name nm)) = none := by
      refine List.find?_eq_none.mpr ?_
      intro c hc
      simp only [Bool.and_eq_true, beq_iff_eq, not_and]
      intro _
      exact hnone c hc
    have heq : create_category_in_existing_group_id st gid nm none "auto" nid =
        .ok ((⟨nid, grp.id, normalize_category_name nm, "auto",
            coalesce_max_sort ((st.categories.filter
              (fun c => c.group_id == grp.id)).map
              (fun c => c.sort_order)) + 1⟩, true),
          { st with categories := st.categories ++
            [⟨nid, grp.id, normalize_category_name nm, "auto",
              coalesce_max_sort ((st.categories.filter
                (fun c => c.group_id == grp.id)).map
                (fun c => c.sort_order)) + 1⟩] }) := by
      simp [create_category_in_existing_group_id, hb, hgrp, hsame, hany, hauto]
    refine ⟨_, _, heq, rfl, rfl, rfl, rfl, ?_, ?_, ?_⟩
    · intro c hc hcg
      dsimp only
      have hmem : c.sort_order ∈
          (st.categories.filter (fun c => c.group_id == grp.id)).map
            (fun c => c.sort_order) :=
        List.mem_map_of_mem _ (List.mem_filter.mpr ⟨hc, by simp [hcg]⟩)
      have := le_coalesce_max_sort hmem
      omega
    · intro hemp
      dsimp only
      rw [hemp]
      rfl
    · intro hnemp
      dsimp only
      have hmne : (st.categories.filter
          (fun c => c.group_id == grp.id)).map (fun c => c.sort_order) ≠ [] := by
        simpa using hnemp
      have hmem := coalesce_max_sort_mem hmne
      rcases List.mem_map.mp hmem with ⟨c, hc, hceq⟩
      exact ⟨c, hc, by rw [← hceq]⟩

/-- Claim C5 witness: at stA, creating Gadgets in group 3 (whose max
sort_order is 1) yields created=true, and re-creating Games under a case
variant returns the existing row with created=false. -/
theorem create_category_idempotent_and_sort_default_witness :
    create_category_in_existing_group_id stA 3 " gAmes " none "auto" 9 =
      .ok ((⟨4, 3, "Games", "auto", 1⟩, false), stA) ∧
    (∃ cat st',
      create_category_in_existing_group_id stA 3 "Gadgets" none "auto" 9 =
        .ok ((cat, true), st') ∧ cat.id = 9 ∧ cat.group_id = 3) := by
  constructor
  · exact (create_category_idempotent_and_sort_default stA 3 " gAmes " 9
      ⟨3, "Fun", 2⟩ (by decide) (by decide)).1 ⟨4, 3, "Games", "auto", 1⟩
      (by decide)
  · obtain ⟨cat, st', heq, hid, hgid, -⟩ :=
      (create_category_idempotent_and_sort_default stA 3 "Gadgets" 9
        ⟨3, "Fun", 2⟩ (by decide) (by decide)).2 (by decide)
    exact ⟨cat, st', heq, hid, hgid⟩

/-- Claim C6: global name uniqueness on create — in a store whose category
names are globally unique across groups (the invariant the service itself
enforces), if some category c1 whose normalized name matches n
case-insensitively lives in a group other than the existing target group,
then createCategory on the target group fails with Conflict, inserting and
modifying nothing (the error is raised before any insert). -/
theorem create_category_global_uniqueness_conflict (st : StoreState)
    (g2id : Nat) (nm : String) (nid : Nat) (c1 : Category) (grp2 : Group)
    (huniq : GlobalUniqueNames st)
    (hgrp2 : st.groups.find? (fun g => g.id == g2id) = some grp2)
    (hc1 : c1 ∈ st.categories)
    (hg1 : st.groups.any (fun g => g.id == c1.group_id) = true)
    (hname : py_lower c1.name = py_lower (normalize_category_name nm))
    (hne : c1.group_id ≠ grp2.id)
    (hnm : normalize_category_name nm ≠ "") :
    create_category_in_existing_group_id st g2id nm none "auto" nid =
      .error .conflict := by
  have hb : (normalize_category_name nm == "") = false := by simpa using hnm
  have hauto : normalize_report_class "auto" = .ok "auto" := rfl
  have hsame : st.categories.find? (fun c =>
      c.group_id == grp2.id &&
      py_lower c.name == py_lower (normalize_category_name nm)) = none := by
    refine List.find?_eq_none.mpr ?_
    intro c hc
    simp only [Bool.and_eq_true, beq_iff_eq, not_and]
    intro hcg hcn
    exact hne ((huniq c1 hc1 c hc (hname.trans hcn.symm)).symm ▸ hcg) |>.elim
  have hany : (st.categories.find? fun c =>
      st.groups.any (fun g => g.id == c.group_id) &&
      py_lower c.name == py_lower (normalize_category_name nm)).isSome = true := by
    rw [List.find?_isSome]
    exact ⟨c1, hc1, by simp [hg1, hname]⟩
  cases hfa : st.categories.find? (fun c =>
      st.groups.any (fun g => g.id == c.group_id) &&
      py_lower c.name == py_lower (normalize_category_name nm)) with
  | none => rw [hfa] at hany; cases hany
  | some cex =>
    simp [create_category_in_existing_group_id, hb, hgrp2, hsame, hauto, hfa]

/-- Claim C6 witness: creating a case variant of Games (group 3) inside
group 2 of stA fails Conflict. -/
theorem create_category_global_uniqueness_conflict_witness :
    create_category_in_existing_group_id stA 2 " gAmes " none "auto" 9 =
      .error .conflict :=
  create_category_global_uniqueness_conflict stA 2 " gAmes " 9
    ⟨4, 3, "Games", "auto", 1⟩ ⟨2, "Food", 1⟩ (by decide) (by decide)
    (by decide) (by decide) (by decide) (by decide) (by decide)

/-- Claim C7 counterexample: on stA, renaming category 3 (Groceries) to
GROCERIES is a no-op with changed=false although the normalized new name
differs from the current name (the code compares case-insensitively, the
claim requires equality), and renaming to a whitespace-only name fails
Validation instead of proceeding to the update/conflict logic. -/
theorem rename_noop_condition_counterexample :
    rename_category stA 3 "GROCERIES" =
      .ok ((⟨3, 2, "Groceries", "auto", 1⟩, false), stA) ∧
    normalize_category_name "GROCERIES" ≠ "Groceries" ∧
    rename_category stA 3 "  " = .error .validation := by
  decide

/-- Claim C7 amended: for an existing non-sentinel category and a new name
that is non-empty after trimming, renameCategory is a no-op with
changed=false exactly when the normalized new name equals the current name
case-insensitively; otherwise it fails Conflict when another category (any
group) holds the normalized name case-insensitively, and else updates the
name and returns changed=true.  A new name that is empty after trimming
fails Validation. -/
theorem rename_category_contract (st : StoreState) (cid : Nat) (nm : String)
    (c : Category)
    (hfind : st.categories.find? (fun x => x.id == cid) = some c)
    (hprot : is_protected_category_id st cid = false)
    (hne : normalize_category_name nm ≠ "") :
    (py_lower c.name = py_lower (normalize_category_name nm) →
      rename_category st cid nm = .ok ((c, false), st)) ∧
    (py_lower c.name ≠ py_lower (normalize_category_name nm) →
      (∀ x ∈ st.categories, x.id ≠ cid →
        py_lower x.name ≠ py_lower (normalize_category_name nm)) →
      rename_category st cid nm =
        .ok (({ c with name := normalize_category_name nm }, true),
          { st with categories := st.categories.map fun x =>
            if x.id == cid then { x with name := normalize_category_name nm }
            else x })) ∧
    (py_lower c.name ≠ py_lower (normalize_category_name nm) →
      (∃ x ∈ st.categories, x.id ≠ cid ∧
        py_lower x.name = py_lower (normalize_category_name nm)) →
      rename_category st cid nm = .error .conflict) ∧
    (∀ nm2, normalize_category_name nm2 = "" →
      rename_category st cid nm2 = .error .validation) := by
  have hb : (normalize_category_name nm == "") = false := by simpa using hne
  refine ⟨?_, ?_, ?_, ?_⟩
  · intro hnoop
    have hbeq : (py_lower c.name == py_lower (normalize_category_name nm)) =
        true := by simpa using hnoop
    simp [rename_category, hb, hfind, hprot, hbeq]
  · intro hnoop hnoconf
    have hbeq : (py_lower c.name == py_lower (normalize_category_name nm)) =
        false := by simpa using hnoop
    have hconf : (st.categories.find? fun x =>
        py_lower x.name == py_lower (normalize_category_name nm) &&
        !(x.id == cid)) = none := by
      refine List.find?_eq_none.mpr ?_
      intro x hx
      simp only [Bool.and_eq_true, beq_iff_eq, Bool.not_eq_eq_eq_not,
        Bool.not_true, beq_eq_false_iff_ne, ne_eq, not_and]
      intro hxn hxid
      exact (hnoconf x hx hxid hxn).elim
    simp [rename_category, hb, hfind, hprot, hbeq, hconf]
  · intro hnoop hconf
    have hbeq : (py_lower c.name == py_lower (normalize_category_name nm)) =
        false := by simpa using hnoop
    obtain ⟨x, hx, hxid, hxn⟩ := hconf
    have hsome : (st.categories.find? fun x =>
        py_lower x.name == py_lower (normalize_category_name nm) &&
        !(x.id == cid)).isSome = true := by
      rw [List.find?_isSome]
      exact ⟨x, hx, by simp [hxn, hxid]⟩
    cases hfa : st.categories.find? (fun x =>
        py_lower x.name == py_lower (normalize_category_name nm) &&
        !(x.id == cid)) with
    | none => rw [hfa] at hsome; cases hsome
    | some cex => simp [rename_category, hb, hfind, hprot, hbeq, hfa]
  · intro nm2 hemp
    have hb2 : (normalize_category_name nm2 == "") = true := by
      simpa using hemp
    simp [rename_category, hb2]

/-- Claim C7 witness: on stA, a case-variant rename of Groceries is a no-op,
renaming it to Snacks changes it, and renaming it to a case variant of Games
fails Conflict. -/
theorem rename_category_contract_witness :
    rename_category stA 3 " gROceries " =
      .ok ((⟨3, 2, "Groceries", "auto", 1⟩, false), stA) ∧
    rename_category stA 3 "Snacks" =
      .ok ((⟨3, 2, "Snacks", "auto", 1⟩, true), stARen) ∧
    rename_category stA 3 "GAMES" = .error .conflict := by
  refine ⟨?_, ?_, ?_⟩
  · exact (rename_category_contract stA 3 " gROceries "
      ⟨3, 2, "Groceries", "auto", 1⟩ (by decide) (by decide) (by decide)).1
      (by decide)
  · have h := (rename_category_contract stA 3 "Snacks"
      ⟨3, 2, "Groceries", "auto", 1⟩ (by decide) (by decide) (by decide)).2.1
      (by decide) (by decide)
    exact h.trans (by decide)
  · exact (rename_category_contract stA 3 "GAMES"
      ⟨3, 2, "Groceries", "auto", 1⟩ (by decide) (by decide) (by decide)).2.2.1
      (by decide) ⟨⟨4, 3, "Games", "auto", 1⟩, by decide, by decide, by decide⟩

/-- Claim C10: frame property of a successful rename (changed=true) — only
the renamed category's name field changes: its id, group_id, sort_order and
report_class are unchanged, every other category row is unchanged, and the
groups, transactions and assignment tables are untouched. -/
theorem rename_category_frame (st : StoreState) (cid : Nat) (nm : String)
    (c' : Category) (st' : StoreState)
    (h : rename_category st cid nm = .ok ((c', true), st')) :
    st'.groups = st.groups ∧ st'.transactions = st.transactions ∧
    st'.transaction_categories = st.transaction_categories ∧
    st'.accounts = st.accounts ∧
    st'.categories.length = st.categories.length ∧
    (∃ c, st.categories.find? (fun x => x.id == cid) = some c ∧
      c'.id = c.id ∧ c'.group_id = c.group_id ∧
      c'.sort_order = c.sort_order ∧ c'.report_class = c.report_class ∧
      c'.name = normalize_category_name nm) ∧
    List.Forall₂ (fun old new =>
      (old.id ≠ cid → new = old) ∧
      (old.id = cid → new.id = old.id ∧ new.group_id = old.group_id ∧
        new.sort_order = old.sort_order ∧
        new.report_class = old.report_class ∧
        new.name = normalize_category_name nm))
      st.categories st'.categories := by
  obtain ⟨-, c, hfind, -, hcase⟩ := rename_ok_inv h
  rcases hcase with ⟨-, hr, -⟩ | ⟨-, -, hr, rfl⟩
  · exact absurd (congrArg Prod.snd hr).symm (by simp)
  · have hc' : c' = { c with name := normalize_category_name nm } := by
      have := congrArg Prod.fst hr
      simpa using this
    refine ⟨rfl, rfl, rfl, rfl, List.length_map _ _, ?_, ?_⟩
    · exact ⟨c, hfind, by rw [hc'], by rw [hc'], by rw [hc'], by rw [hc'],
        by rw [hc']⟩
    · rw [List.forall₂_map_right_iff]
      refine List.forall₂_same.mpr ?_
      intro x hx
      constructor
      · intro hxne
        have hxb : (x.id == cid) = false := by simpa using hxne
        simp [hxb]
      · intro hxe
        have hxb : (x.id == cid) = true := by simpa using hxe
        simp [hxb]

/-- Claim C10 witness: the frame property at the concrete rename of
Groceries to Snacks on stA. -/
theorem rename_category_frame_witness :
    stARen.groups = stA.groups ∧
    stARen.transaction_categories = stA.transaction_categories :=
  have h := rename_category_frame stA 3 "Snacks" ⟨3, 2, "Snacks", "auto", 1⟩
    stARen (by decide)
  ⟨h.1, h.2.2.1⟩

/-- Claim C9: the two read paths disagree on the end-date convention — a
transaction dated exactly at the end bound is included by listTransactions
with that end filter (inclusive, date less-or-equal end) but contributes no
row to the taxonomy_count join, which uses the half-open interval
(date strictly below end). -/
theorem end_date_convention_disagreement (st : StoreState) (t : Transaction)
    (acct : Account) (e : Int) (lim : Nat) (g c : String) (s : Int)
    (ht : t ∈ st.transactions)
    (hacct : st.accounts.find? (fun a => a.id == t.account_id) = some acct)
    (hdate : t.date = e)
    (hlim : st.transactions.length ≤ lim) :
    (∃ rows, list_transactions st
        { default_filters with end_ := some e, limit := lim } = .ok rows ∧
      ∃ r ∈ rows, r.tx = t) ∧
    taxonomy_count st g c s e = (taxonomy_count_rows st g c s e).length ∧
    (∀ q ∈ taxonomy_count_rows st g c s e, q.1 ≠ t) := by
  refine ⟨?_, rfl, ?_⟩
  · have hrow : ∃ r ∈ (joined_rows st).filter
        (row_matches { default_filters with end_ := some e, limit := lim }),
        r.tx = t := by
      refine ⟨⟨t, acct,
          st.transaction_categories.find? (fun l => l.txn_id == t.id),
          (st.transaction_categories.find? (fun l => l.txn_id == t.id)).bind
            (fun l => st.categories.find? (fun x => x.id == l.category_id)),
          ((st.transaction_categories.find? (fun l => l.txn_id == t.id)).bind
            (fun l =>
              st.categories.find? (fun x => x.id == l.category_id))).bind
            (fun x => st.groups.find? (fun g2 => g2.id == x.group_id))⟩,
        List.mem_filter.mpr ⟨?_, ?_⟩, rfl⟩
      · exact List.mem_filterMap.mpr ⟨t, ht, by rw [hacct]; rfl⟩
      · simp [row_matches, default_filters, hdate]
    obtain ⟨r, hrmem, hrtx⟩ := hrow
    have hmems := (List.perm_insertionSort row_order_asc
      ((joined_rows st).filter (row_matches
        { default_filters with end_ := some e, limit := lim }))).mem_iff.mpr
      hrmem
    have hlen : (List.insertionSort row_order_asc
        ((joined_rows st).filter (row_matches
          { default_filters with end_ := some e, limit := lim }))).length ≤
        lim := by
      rw [List.length_insertionSort]
      calc ((joined_rows st).filter (row_matches
            { default_filters with end_ := some e, limit := lim })).length
          ≤ (joined_rows st).length := List.length_filter_le _ _
        _ ≤ st.transactions.length := List.length_filterMap_le _ _
        _ ≤ lim := hlim
    refine ⟨(List.insertionSort row_order_asc
        ((joined_rows st).filter (row_matches
          { default_filters with end_ := some e, limit := lim }))).take lim,
      rfl, ?_⟩
    rw [List.take_of_length_le hlen]
    exact ⟨r, hmems, hrtx⟩
  · intro q hq
    have h2 := (List.mem_filter.mp hq).2
    simp only [Bool.and_eq_true, decide_eq_true_eq] at h2
    intro heq
    rw [heq, hdate] at h2
    exact absurd h2.2 (lt_irrefl e)

/-- Claim C9 witness: on stA the transaction dated 10 is listed when the end
filter is 10 but is not counted by taxonomy_count over the interval from 0
to 10. -/
theorem end_date_convention_disagreement_witness :
    (∃ rows, list_transactions stA
        { default_filters with end_ := some 10, limit := 1 } = .ok rows ∧
      ∃ r ∈ rows, r.tx = ⟨555, 1, 1, 10, "milk", -5, "tbl", "f.csv", 1⟩) ∧
    (∀ q ∈ taxonomy_count_rows stA "Food" "Groceries" 0 10,
      q.1 ≠ ⟨555, 1, 1, 10, "milk", -5, "tbl", "f.csv", 1⟩) :=
  have h := end_date_convention_disagreement stA
    ⟨555, 1, 1, 10, "milk", -5, "tbl", "f.csv", 1⟩ ⟨1, "checking"⟩ 10 1
    "Food" "Groceries" 0 (by decide) (by decide) (by decide) (by decide)
  ⟨h.1, h.2.2⟩

end Gowrox
